import Mathlib

/-!
Verification of the cribbage rules engine in `src/pages/index.js`.

The pure game logic of the source file (card model, hand scoring, pegging
transitions, score accumulation, and the Monte Carlo pegging playout) is
shallowly embedded below.  JavaScript numbers holding card ranks, running
totals and points are modelled as `Nat` (they stay small and non-negative),
except the rollout's net score which can go negative and is modelled as `Int`.
JavaScript arrays are `List`s; object identity on cards coincides with
structural equality because hands never hold duplicate cards.
-/

/-- The four suit symbols of `SUITS`. -/
inductive Suit
  | club
  | diamond
  | heart
  | spade
deriving DecidableEq, Repr

/-- A card `{ r, s }`: rank 1..13 (1=A, 11=J, 12=Q, 13=K) and a suit. -/
structure Card where
  r : Nat
  s : Suit
deriving DecidableEq, Repr

/-- The two actors, player and computer. -/
inductive Who
  | P
  | AI
deriving DecidableEq, Repr

/-- `cardValue15`: capped cribbage value, face cards count 10. -/
def cardValue15 (r : Nat) : Nat := if r > 10 then 10 else r

/-- `combos`: all non-empty subsets of `arr`, enumerated by bitmask 1..2^n-1,
each subset listing elements in increasing index order. -/
def combos (arr : List Card) : List (List Card) :=
  ((List.range (2 ^ arr.length)).drop 1).map (fun mask =>
    arr.enum.filterMap (fun ic => if mask.testBit ic.1 then some ic.2 else none))

/-- `count15`: 2 points for every subset whose capped values sum to 15. -/
def count15 (cards : List Card) : Nat :=
  (combos cards).foldl (fun pts subset =>
    if subset.foldl (fun a c => a + cardValue15 c.r) 0 = 15 then pts + 2 else pts) 0

/-- Number of cards in `cards` of rank `r` (the `ranks`/`byRank` tally). -/
def rankCount (cards : List Card) (r : Nat) : Nat :=
  (cards.filter (fun c => c.r = r)).length

/-- `countPairs`: for every rank with `n ≥ 2` occurrences, `n*(n-1)/2 * 2`. -/
def countPairs (cards : List Card) : Nat :=
  ((cards.map (fun c => c.r)).dedup).foldl (fun pts r =>
    let n := rankCount cards r
    if 2 ≤ n then pts + n * (n - 1) / 2 * 2 else pts) 0

/-- Insert a number into an already sorted list (ascending). -/
def insertSorted (x : Nat) : List Nat → List Nat
  | [] => [x]
  | y :: ys => if x ≤ y then x :: y :: ys else y :: insertSorted x ys

/-- Ascending sort of a list of naturals (the `.sort((a,b)=>a-b)` calls). -/
def sortNat (l : List Nat) : List Nat := l.foldr insertSorted []

/-- Split a sorted list of distinct ranks into maximal consecutive blocks
(the inner `while (unique[j+1] === unique[j]+1) j++` scan of `countRuns`). -/
def splitRuns : List Nat → List (List Nat)
  | [] => []
  | [r] => [[r]]
  | r :: r2 :: rest =>
    match splitRuns (r2 :: rest) with
    | [] => [[r]]
    | b :: bs => if r2 = r + 1 then (r :: b) :: bs else [r] :: b :: bs

/-- `countRuns`: only the longest run length among the distinct ranks counts;
each such run scores its length times the product of rank multiplicities. -/
def countRuns (cards : List Card) : Nat :=
  let unique := sortNat ((cards.map (fun c => c.r)).dedup)
  ((splitRuns unique).foldl (fun acc blk =>
    let runLen := blk.length
    if 3 ≤ runLen then
      let mult := blk.foldl (fun m r => m * rankCount cards r) 1
      if acc.1 < runLen then (runLen, runLen * mult)
      else if runLen = acc.1 then (acc.1, acc.2 + runLen * mult)
      else acc
    else acc) ((0, 0) : Nat × Nat)).2

/-- `flushPoints`: 4-card flush in hand scores 4 (0 in the crib), 5 when the
starter matches the common suit. -/
def flushPoints (hand : List Card) (starter : Card) (isCrib : Bool) : Nat :=
  match hand with
  | [] => if isCrib then 0 else 4
  | c0 :: _ =>
    if hand.all (fun c => c.s = c0.s) then
      if starter.s = c0.s then 5
      else if isCrib then 0 else 4
    else 0

/-- `knobsPoints`: 1 point for holding the Jack of the starter's suit. -/
def knobsPoints (hand : List Card) (starter : Card) : Nat :=
  if hand.any (fun c => c.r = 11 ∧ c.s = starter.s) then 1 else 0

/-- The `HOUSE_798` house-rule flag, hard-coded on in the source. -/
def HOUSE_798 : Bool := true

/-- `hull798Bonus`: 3 points per distinct 7-8-9 triple among the five cards. -/
def hull798Bonus (allFive : List Card) : Nat :=
  if HOUSE_798 then
    3 * (rankCount allFive 7 * rankCount allFive 8 * rankCount allFive 9)
  else 0

/-- `handPoints`: total score of a 4-card hand plus starter. -/
def handPoints (hand4 : List Card) (starter : Card) (isCrib : Bool) : Nat :=
  let all := hand4 ++ [starter]
  count15 all + countPairs all + countRuns all
    + flushPoints hand4 starter isCrib + knobsPoints hand4 starter
    + hull798Bonus all

/-- `legalPlays`: the cards whose capped value keeps the total at most 31. -/
def legalPlays (hand : List Card) (total : Nat) : List Card :=
  hand.filter (fun c => total + cardValue15 c.r ≤ 31)

/-- Length of the maximal block of equal-rank cards at the end of `seq`
(the backwards `while (seq[k-1].r === seq[k].r)` scan). -/
def tailSameCount (seq : List Card) : Nat :=
  match seq.reverse with
  | [] => 0
  | c :: rest => 1 + (rest.takeWhile (fun d => d.r = c.r)).length

/-- Pair points at the tail of `seq`: 2, 6 or 12 for exactly 2, 3 or 4
equal-rank cards at the end, otherwise 0. -/
def pairPts (seq : List Card) : Nat :=
  let same := tailSameCount seq
  if same = 2 then 2 else if same = 3 then 6 else if same = 4 then 12 else 0

/-- Check that a sorted list of ranks increases by exactly 1 at every step
(the `ranks[i] !== ranks[i-1] + 1` scan). -/
def consecCheck : List Nat → Bool
  | [] => true
  | [_] => true
  | a :: b :: rest => (b = a + 1) && consecCheck (b :: rest)

/-- Whether the last `l` cards of `seq` form a run once sorted by rank. -/
def tailRunOk (seq : List Card) (l : Nat) : Bool :=
  consecCheck (sortNat ((seq.drop (seq.length - l)).map (fun c => c.r)))

/-- Run points at the tail of `seq`: try tail lengths from `min 7 seq.length`
down to 3 and score the first (hence longest) length that forms a run. -/
def runTailPoints (seq : List Card) : Nat :=
  (((List.range' 3 (min 7 seq.length - 2)).reverse).find?
    (fun l => tailRunOk seq l)).getD 0

/-- `isPairRunPoints`: pegging pair and run points for playing `nextCard`
on top of `stack`. -/
def isPairRunPoints (stack : List Card) (nextCard : Card) : Nat :=
  let seq := stack ++ [nextCard]
  pairPts seq + runTailPoints seq

/-- The pegging state threaded by the game hook: play stack, running total,
both remaining hands, seen cards, starter, whose move, pass flags, plus the
`points`/`thirtyOne` fields that `applyPlay` attaches to its result. -/
structure PegState where
  stack : List Card
  total : Nat
  pHand : List Card
  aiHand : List Card
  seen : List Card
  starter : Card
  next : Who
  pPassed : Bool
  aiPassed : Bool
  points : Nat
  thirtyOne : Bool
deriving DecidableEq, Repr

/-- `applyPlay`: append the card, add its capped value to the total, score
15/31 plus tail pair/run points, remove the card from the actor's hand,
flip the turn and clear both pass flags. -/
def applyPlay (state : PegState) (card : Card) (who : Who) : PegState :=
  let newTotal := state.total + cardValue15 card.r
  let points15or31 := (if newTotal = 15 then 2 else 0) + (if newTotal = 31 then 2 else 0)
  let pairRun := isPairRunPoints state.stack card
  { state with
    stack := state.stack ++ [card]
    total := newTotal
    pHand := if who = Who.P then state.pHand.filter (fun c => c ≠ card) else state.pHand
    aiHand := if who = Who.AI then state.aiHand.filter (fun c => c ≠ card) else state.aiHand
    next := if who = Who.P then Who.AI else Who.P
    pPassed := false
    aiPassed := false
    points := points15or31 + pairRun
    thirtyOne := decide (newTotal = 31) }

/-- The game phases driven by the orchestration hook. -/
inductive Phase
  | deal
  | discard
  | cut
  | pegging
  | show
deriving DecidableEq, Repr

/-- The slice of hook state touched by `commitDiscardsSelected`. -/
structure DiscardSt where
  pHand : List Card
  crib : List Card
  phase : Phase
deriving DecidableEq, Repr

/-- `commitDiscardsSelected`: a selection of size other than 2 is ignored;
otherwise the selected cards are appended to the crib, any card of the hand
matching a selected one (by rank and suit) is removed, and the phase moves
to `cut`.  The source performs no membership check on the selection. -/
def commitDiscardsSelected (st : DiscardSt) (selectedTwo : List Card) : DiscardSt :=
  if selectedTwo.length ≠ 2 then st
  else
    { pHand := st.pHand.filter
        (fun c => ¬ selectedTwo.any (fun x => x.r = c.r ∧ x.s = c.s))
      crib := st.crib ++ selectedTwo
      phase := Phase.cut }

/-- The pair of cumulative scores kept by the hook. -/
structure Scores where
  p : Nat
  ai : Nat
deriving DecidableEq, Repr

/-- The score-related slice of hook state touched by `addScore`. -/
structure GameSc where
  scores : Scores
  prevScores : Scores
  gameOver : Bool
  winner : Option Who
deriving DecidableEq, Repr

/-- Read one player's cumulative score (`s[who]`). -/
def getScore (s : Scores) (who : Who) : Nat :=
  match who with
  | Who.P => s.p
  | Who.AI => s.ai

/-- Update one player's cumulative score (`{ ...s, [who]: v }`). -/
def setScore (s : Scores) (who : Who) (v : Nat) : Scores :=
  match who with
  | Who.P => { p := v, ai := s.ai }
  | Who.AI => { p := s.p, ai := v }

/-- `addScore`: ignore non-positive deltas and any award after game over;
otherwise clamp the new score to 120, remember the previous scores, and set
game over (and the winner) the moment the clamped score reaches 120. -/
def addScore (g : GameSc) (who : Who) (delta : Nat) : GameSc :=
  if delta ≤ 0 ∨ g.gameOver then g
  else
    let nextVal := min 120 (getScore g.scores who + delta)
    { scores := setScore g.scores who nextVal
      prevScores := g.scores
      gameOver := decide (120 ≤ nextVal)
      winner := if 120 ≤ nextVal then some who else g.winner }

/-- The simulated opponent's greedy choice inside `rollout`: first card of
maximal immediate pegging points (strict improvement replaces), paired with
those points.  `none` exactly when `legal` is empty. -/
def bestImmediate (legal : List Card) (total : Nat) (stack : List Card) :
    Option (Card × Nat) :=
  legal.foldl (fun acc c =>
    let t2 := total + cardValue15 c.r
    let pts := (if t2 = 15 then 2 else 0) + (if t2 = 31 then 2 else 0)
      + isPairRunPoints stack c
    match acc with
    | none => some (c, pts)
    | some pr => if pr.2 < pts then some (c, pts) else some pr) none

/-- The simulated AI's greedy choice inside `rollout`: maximal immediate
points, ties broken towards the higher resulting total; the returned triple
also carries the resulting total used for tie-breaking. -/
def bestImmediateAI (legal : List Card) (total : Nat) (stack : List Card) :
    Option (Card × Nat × Nat) :=
  legal.foldl (fun acc c =>
    let t2 := total + cardValue15 c.r
    let pts := (if t2 = 15 then 2 else 0) + (if t2 = 31 then 2 else 0)
      + isPairRunPoints stack c
    match acc with
    | none => some (c, pts, t2)
    | some pr =>
      if pr.2.1 < pts ∨ (pts = pr.2.1 ∧ pr.2.2 < t2) then some (c, pts, t2)
      else some pr) none

/-- The mutable variables of one simulated playout inside `rollout`. -/
structure SimSt where
  turn : Who
  total : Nat
  stack : List Card
  aiRem : List Card
  pOpts : List Card
  pPassed : Bool
  aiPassed : Bool
  lastMover : Who
  aiPts : Int
deriving Repr

/-- The greedy-vs-greedy playout loop of `rollout`, fuelled: each pass either
plays a card or records a pass, a play reaching 31 ends the playout at once
with no extra point, and a double Go awards 1 to the AI only when the AI made
the last play.  `none` only on fuel exhaustion, which enough fuel rules out. -/
def simLoop : Nat → SimSt → Option Int
  | 0, _ => none
  | Nat.succ fuel, st =>
    match st.turn with
    | Who.P =>
      let pLegal := st.pOpts.filter (fun c => st.total + cardValue15 c.r ≤ 31)
      if pLegal.isEmpty then
        if st.aiPassed then
          some (st.aiPts + (if st.lastMover = Who.AI then 1 else 0))
        else simLoop fuel { st with pPassed := true, turn := Who.AI }
      else
        match bestImmediate pLegal st.total st.stack with
        | none => none
        | some pr =>
          let t2 := st.total + cardValue15 pr.1.r
          let st' := { st with
            turn := Who.AI
            total := t2
            stack := st.stack ++ [pr.1]
            pOpts := st.pOpts.filter (fun c => c ≠ pr.1)
            pPassed := false
            lastMover := Who.P
            aiPts := st.aiPts - (pr.2 : Int) }
          if t2 = 31 then some st'.aiPts else simLoop fuel st'
    | Who.AI =>
      let aiLegal := st.aiRem.filter (fun c => st.total + cardValue15 c.r ≤ 31)
      if aiLegal.isEmpty then
        if st.pPassed then
          some (st.aiPts + (if st.lastMover = Who.AI then 1 else 0))
        else simLoop fuel { st with aiPassed := true, turn := Who.P }
      else
        match bestImmediateAI aiLegal st.total st.stack with
        | none => none
        | some pr =>
          let t2 := st.total + cardValue15 pr.1.r
          let st' := { st with
            turn := Who.P
            total := t2
            stack := st.stack ++ [pr.1]
            aiRem := st.aiRem.filter (fun c => c ≠ pr.1)
            aiPassed := false
            lastMover := Who.AI
            aiPts := st.aiPts + (pr.2.1 : Int) }
          if t2 = 31 then some st'.aiPts else simLoop fuel st'

/-- One simulation iteration of `rollout`, derandomised: `oppSample` stands
for the cards drawn for the opponent from the shuffled unseen deck.  The AI
first plays the candidate `play`; if that play itself makes the total exactly
31 the iteration ends at once with one extra point on top of the points for
the play, otherwise the greedy playout loop runs to completion. -/
def simOne (state : PegState) (play : Card) (oppSample : List Card) : Option Int :=
  let total := state.total + cardValue15 play.r
  let aiPts : Int := ((if total = 15 then 2 else 0) + (if total = 31 then 2 else 0)
    + isPairRunPoints state.stack play : Nat)
  if total = 31 then some (aiPts + 1)
  else
    simLoop (2 * (state.aiHand.length + oppSample.length) + 8)
      { turn := Who.P
        total := total
        stack := state.stack ++ [play]
        aiRem := state.aiHand.filter (fun c => c ≠ play)
        pOpts := oppSample
        pPassed := false
        aiPassed := false
        lastMover := Who.AI
        aiPts := aiPts }

/-- A pegging state at total 30 where playing any ten-valued card is illegal. -/
def c1State : PegState :=
  { stack := [], total := 30, pHand := [⟨10, Suit.club⟩], aiHand := []
    seen := [], starter := ⟨2, Suit.heart⟩, next := Who.P
    pPassed := false, aiPassed := false, points := 0, thirtyOne := false }

/-- C1 (counterexample): at total 30, playing the 10♣ would take the total to
40 > 31, so the play is illegal, yet `applyPlay` does not reject it: the
returned state has the card appended to the stack and total 40, so the state
is not left unchanged as the claim requires. -/
theorem applyPlay_illegal_changes_state :
    (applyPlay c1State ⟨10, Suit.club⟩ Who.P).total = 40
    ∧ (applyPlay c1State ⟨10, Suit.club⟩ Who.P).stack ≠ c1State.stack
    ∧ 31 < (applyPlay c1State ⟨10, Suit.club⟩ Who.P).total := by decide

/-- C1 (amended): `applyPlay` performs no legality check at all: for every
pegging state, card and actor it appends the card to the stack and adds the
card's capped value to the running total, even when the result exceeds 31 or
the card is not in the actor's hand; rejection of illegal plays is left to
callers, which only offer cards returned by `legalPlays`. -/
theorem applyPlay_unconditional (st : PegState) (c : Card) (w : Who) :
    (applyPlay st c w).stack = st.stack ++ [c]
    ∧ (applyPlay st c w).total = st.total + cardValue15 c.r :=
  ⟨rfl, rfl⟩

/-- The five-card group with ranks 3, 4, 5, 5, 6 used by the run claim. -/
def runExample : List Card :=
  [⟨3, Suit.club⟩, ⟨4, Suit.diamond⟩, ⟨5, Suit.heart⟩, ⟨5, Suit.spade⟩, ⟨6, Suit.club⟩]

/-- C2 (counterexample): on ranks {3,4,5,5,6} the code awards 8 run points,
not the 6 points the claim states. -/
theorem countRuns_34556_ne_six : countRuns runExample ≠ 6 := by decide

/-- C2 (amended): on ranks {3,4,5,5,6} the code scores the longest run 3-4-5-6
once per each 5, a double run of four worth 4 × 2 = 8 run points (not a single
run of five, which would be worth 5), plus 2 pair points for the pair of 5s. -/
theorem countRuns_34556 :
    countRuns runExample = 8 ∧ countPairs runExample = 2 := by decide

/-- The hand {5♣,5♦,5♥,10♠} of the 29-point claim. -/
def claimedMaxHand : List Card :=
  [⟨5, Suit.club⟩, ⟨5, Suit.diamond⟩, ⟨5, Suit.heart⟩, ⟨10, Suit.spade⟩]

/-- The true maximal cribbage hand {5♣,5♦,5♥,J♠} with starter 5♠. -/
def trueMaxHand : List Card :=
  [⟨5, Suit.club⟩, ⟨5, Suit.diamond⟩, ⟨5, Suit.heart⟩, ⟨11, Suit.spade⟩]

/-- C3 (counterexample): `handPoints` on hand {5♣,5♦,5♥,10♠} with starter J♣
in non-crib evaluation does not return 29. -/
theorem handPoints_5551OJ_ne_29 :
    handPoints claimedMaxHand ⟨11, Suit.club⟩ false ≠ 29 := by decide

/-- C3 (amended): hand {5♣,5♦,5♥,10♠} with starter J♣ scores 20 (seven
fifteens for 14 plus a triple of 5s for 6; the jack is the starter, not held,
so no knobs); the canonical 29-point maximum is hand {5♣,5♦,5♥,J♠} with
starter 5♠, on which `handPoints` returns 29. -/
theorem handPoints_5551OJ_eq_20 :
    handPoints claimedMaxHand ⟨11, Suit.club⟩ false = 20
    ∧ handPoints trueMaxHand ⟨5, Suit.spade⟩ false = 29 := by decide

/-- C5: any card returned by `legalPlays` for the current total, when passed
to `applyPlay`, yields a new total equal to the old total plus the card's
capped value, and that new total never exceeds 31. -/
theorem legalPlays_applyPlay_total (st : PegState) (hand : List Card) (c : Card)
    (w : Who) (_htot : st.total ≤ 31) (hc : c ∈ legalPlays hand st.total) :
    (applyPlay st c w).total = st.total + cardValue15 c.r
    ∧ (applyPlay st c w).total ≤ 31 := by
  refine ⟨rfl, ?_⟩
  have h := List.mem_filter.mp hc
  have h2 : st.total + cardValue15 c.r ≤ 31 := by simpa using h.2
  exact h2

/-- A pegging state at total 10 used to instantiate the round-trip theorem. -/
def c5State : PegState :=
  { stack := [], total := 10, pHand := [⟨5, Suit.club⟩], aiHand := []
    seen := [], starter := ⟨2, Suit.heart⟩, next := Who.P
    pPassed := false, aiPassed := false, points := 0, thirtyOne := false }

/-- Witness for the round-trip theorem: playing the 5♣ from total 10. -/
theorem legalPlays_applyPlay_total_witness :
    (applyPlay c5State ⟨5, Suit.club⟩ Who.P).total = c5State.total + cardValue15 5
    ∧ (applyPlay c5State ⟨5, Suit.club⟩ Who.P).total ≤ 31 :=
  legalPlays_applyPlay_total c5State [⟨5, Suit.club⟩] ⟨5, Suit.club⟩ Who.P
    (by decide) (by decide)

/-- C6: the flush award is 0 unless all four hand cards share one suit; when
they do, it is 5 if the starter shares that suit, and otherwise 4 in hand
evaluation but 0 in crib evaluation. -/
theorem flushPoints_cases (h0 h1 h2 h3 st : Card) (isCrib : Bool) :
    flushPoints [h0, h1, h2, h3] st isCrib =
      if h1.s = h0.s ∧ h2.s = h0.s ∧ h3.s = h0.s then
        (if st.s = h0.s then 5 else if isCrib then 0 else 4)
      else 0 := by
  by_cases a : h1.s = h0.s <;> by_cases b : h2.s = h0.s <;> by_cases c : h3.s = h0.s <;>
    simp [flushPoints, a, b, c]

/-- The six-card player hand used by the discard-commit claim. -/
def discardState : DiscardSt :=
  { pHand := [⟨2, Suit.club⟩, ⟨3, Suit.club⟩, ⟨4, Suit.club⟩,
      ⟨5, Suit.club⟩, ⟨6, Suit.club⟩, ⟨7, Suit.club⟩]
    crib := [], phase := Phase.discard }

/-- C7 (counterexample): committing two cards that are not in the hand is not
rejected: the two foreign cards are appended to the crib and the phase
advances to `cut`, so the state does change. -/
theorem commitDiscards_foreign_changes_state :
    (commitDiscardsSelected discardState [⟨9, Suit.spade⟩, ⟨10, Suit.spade⟩]).crib
      ≠ discardState.crib
    ∧ (commitDiscardsSelected discardState [⟨9, Suit.spade⟩, ⟨10, Suit.spade⟩]).phase
      ≠ discardState.phase := by decide

/-- C7 (amended): a discard commit whose selection does not hold exactly 2
cards is rejected with no state change; membership of the selected cards in
the hand is not checked. -/
theorem commitDiscards_rejects_bad_size (st : DiscardSt) (sel : List Card)
    (h : sel.length ≠ 2) : commitDiscardsSelected st sel = st := by
  simp [commitDiscardsSelected, h]

/-- Witness for the discard-size rejection: a one-card selection is a no-op. -/
theorem commitDiscards_rejects_bad_size_witness :
    commitDiscardsSelected discardState [⟨9, Suit.spade⟩] = discardState :=
  commitDiscards_rejects_bad_size discardState [⟨9, Suit.spade⟩] (by decide)

/-- C10: `applyPlay` clears both pass flags, removes the played card from the
acting player's hand only, and leaves the other hand, the seen set and the
starter untouched. -/
theorem applyPlay_frame (st : PegState) (c : Card) (w : Who) :
    (applyPlay st c w).pPassed = false
    ∧ (applyPlay st c w).aiPassed = false
    ∧ (applyPlay st c w).seen = st.seen
    ∧ (applyPlay st c w).starter = st.starter
    ∧ (applyPlay st c w).pHand
        = (if w = Who.P then st.pHand.filter (fun x => x ≠ c) else st.pHand)
    ∧ (applyPlay st c w).aiHand
        = (if w = Who.AI then st.aiHand.filter (fun x => x ≠ c) else st.aiHand) :=
  ⟨rfl, rfl, rfl, rfl, rfl, rfl⟩

/-- C8: on any score state satisfying the game's running invariant (both
scores at most 120, and strictly below 120 while the game is not over),
`addScore` is monotone in both scores, keeps both clamped to 120, sets game
over the instant a score reaches 120, is a no-op once the game is over, and
re-establishes the invariant. -/
theorem addScore_invariants (g : GameSc) (who : Who) (delta : Nat)
    (hp : g.scores.p ≤ 120) (hai : g.scores.ai ≤ 120)
    (hinv : g.gameOver = false → g.scores.p < 120 ∧ g.scores.ai < 120) :
    (g.scores.p ≤ (addScore g who delta).scores.p
      ∧ g.scores.ai ≤ (addScore g who delta).scores.ai)
    ∧ ((addScore g who delta).scores.p ≤ 120
      ∧ (addScore g who delta).scores.ai ≤ 120)
    ∧ ((120 ≤ (addScore g who delta).scores.p
        ∨ 120 ≤ (addScore g who delta).scores.ai)
        → (addScore g who delta).gameOver = true)
    ∧ (g.gameOver = true → addScore g who delta = g)
    ∧ ((addScore g who delta).gameOver = false
        → (addScore g who delta).scores.p < 120
          ∧ (addScore g who delta).scores.ai < 120) := by
  by_cases hd : delta ≤ 0 ∨ g.gameOver = true
  · have hres : addScore g who delta = g := by
      simp only [addScore]
      rw [if_pos]
      simpa using hd
    rw [hres]
    refine ⟨⟨le_refl _, le_refl _⟩, ⟨hp, hai⟩, ?_, fun _ => rfl, hinv⟩
    intro h
    cases hg : g.gameOver
    · rcases hinv hg with ⟨h1, h2⟩
      omega
    · rfl
  · push_neg at hd
    have hgo : g.gameOver = false := by
      cases hg : g.gameOver
      · rfl
      · exact absurd hg hd.2
    have hlt := hinv hgo
    have hres : addScore g who delta =
        { scores := setScore g.scores who (min 120 (getScore g.scores who + delta))
          prevScores := g.scores
          gameOver := decide (120 ≤ min 120 (getScore g.scores who + delta))
          winner := if 120 ≤ min 120 (getScore g.scores who + delta) then some who
            else g.winner } := by
      simp only [addScore]
      rw [if_neg]
      intro hcon
      rcases hcon with hcon | hcon
      · omega
      · exact hd.2 hcon
    rw [hres]
    cases who <;>
      simp only [getScore, setScore, decide_eq_true_eq, decide_eq_false_iff_not] <;>
      refine ⟨⟨?_, ?_⟩, ⟨?_, ?_⟩, ?_, ?_, ?_⟩ <;>
      first
        | omega
        | (intro h; omega)
        | (intro h; rw [hgo] at h; cases h)

/-- Scanning the lengths `min 7 len, …, 3` downwards and keeping the first
success is the same as taking the greatest qualifying length: the descending
`find?` of `runTailPoints` equals `Nat.findGreatest` over lengths at least 3. -/
theorem findDesc_eq_findGreatest (p : Nat → Bool) :
    ∀ m : Nat, (((List.range' 3 (m - 2)).reverse).find? p).getD 0
      = Nat.findGreatest (fun l => 3 ≤ l ∧ p l = true) m := by
  intro m
  induction m with
  | zero => simp
  | succ n ih =>
    rcases Nat.lt_or_ge n 2 with hn | hn
    · interval_cases n <;>
        simp [Nat.findGreatest_succ, Nat.findGreatest]
    · have h1 : n + 1 - 2 = (n - 2) + 1 := by omega
      have h2 : 3 + 1 * (n - 2) = n + 1 := by omega
      rw [h1, List.range'_concat, h2, List.reverse_append, List.reverse_singleton,
        List.singleton_append, List.find?_cons, Nat.findGreatest_succ]
      have h3 : 3 ≤ n + 1 := by omega
      cases hp : p (n + 1)
      · simpa [hp] using ih
      · simp [hp, h3]

/-- Bounding the search by `min 7 len` is the same as searching lengths up to
7 with the explicit constraint that the tail of that length exists. -/
theorem findGreatest_min_eq (p : Nat → Bool) (n : Nat) :
    Nat.findGreatest (fun l => 3 ≤ l ∧ p l = true) (min 7 n)
      = Nat.findGreatest (fun l => 3 ≤ l ∧ l ≤ 7 ∧ l ≤ n ∧ p l = true) 7 := by
  apply Nat.le_antisymm
  · by_cases h : Nat.findGreatest (fun l => 3 ≤ l ∧ p l = true) (min 7 n) = 0
    · simp [h]
    · have hspec := Nat.findGreatest_of_ne_zero (rfl
        (a := Nat.findGreatest (fun l => 3 ≤ l ∧ p l = true) (min 7 n))) h
      have hle := Nat.findGreatest_le (P := fun l => 3 ≤ l ∧ p l = true) (min 7 n)
      exact Nat.le_findGreatest (by omega) ⟨hspec.1, by omega, by omega, hspec.2⟩
  · by_cases h : Nat.findGreatest (fun l => 3 ≤ l ∧ l ≤ 7 ∧ l ≤ n ∧ p l = true) 7 = 0
    · simp [h]
    · have hspec := Nat.findGreatest_of_ne_zero (rfl
        (a := Nat.findGreatest (fun l => 3 ≤ l ∧ l ≤ 7 ∧ l ≤ n ∧ p l = true) 7)) h
      exact Nat.le_findGreatest (by omega) ⟨hspec.1, hspec.2.2.2⟩

/-- C4: the points attached by `applyPlay` are exactly 2 when the new total is
15, plus 2 when it is 31, plus the tail pair points (2/6/12 for 2/3/4 equal
trailing ranks), plus, for the single greatest tail length between 3 and 7
whose cards' ranks sort into consecutive values, that length in points —
shorter runs nested inside the longest are not also counted. -/
theorem applyPlay_points_spec (st : PegState) (c : Card) (w : Who) :
    (applyPlay st c w).points =
      (if st.total + cardValue15 c.r = 15 then 2 else 0)
      + (if st.total + cardValue15 c.r = 31 then 2 else 0)
      + pairPts (st.stack ++ [c])
      + Nat.findGreatest (fun l => 3 ≤ l ∧ l ≤ 7 ∧ l ≤ (st.stack ++ [c]).length
          ∧ tailRunOk (st.stack ++ [c]) l = true) 7 := by
  have h3 : runTailPoints (st.stack ++ [c])
      = Nat.findGreatest (fun l => 3 ≤ l ∧ l ≤ 7 ∧ l ≤ (st.stack ++ [c]).length
          ∧ tailRunOk (st.stack ++ [c]) l = true) 7 := by
    have ha := findDesc_eq_findGreatest (fun l => tailRunOk (st.stack ++ [c]) l)
      (min 7 (st.stack ++ [c]).length)
    have hb := findGreatest_min_eq (fun l => tailRunOk (st.stack ++ [c]) l)
      (st.stack ++ [c]).length
    exact ha.trans hb
  show ((if st.total + cardValue15 c.r = 15 then 2 else 0)
      + (if st.total + cardValue15 c.r = 31 then 2 else 0))
      + (pairPts (st.stack ++ [c]) + runTailPoints (st.stack ++ [c])) = _
  rw [h3]
  ring

/-- A pegging state in which the simulated opponent's reply reaches 31. -/
def oppHits31State : PegState :=
  { stack := [⟨9, Suit.club⟩], total := 16, pHand := [⟨10, Suit.spade⟩]
    aiHand := [⟨5, Suit.club⟩], seen := [], starter := ⟨2, Suit.heart⟩
    next := Who.AI, pPassed := false, aiPassed := false
    points := 0, thirtyOne := false }

/-- A pegging state in which the AI's second, in-loop play reaches 31. -/
def aiHits31State : PegState :=
  { stack := [⟨2, Suit.club⟩], total := 9, pHand := [⟨5, Suit.diamond⟩]
    aiHand := [⟨7, Suit.club⟩, ⟨13, Suit.diamond⟩], seen := []
    starter := ⟨2, Suit.heart⟩, next := Who.AI, pPassed := false
    aiPassed := false, points := 0, thirtyOne := false }

/-- C9 (counterexample): the AI plays 5♣ at total 16, then the simulated
opponent plays 10♠ reaching exactly 31 and scoring 2 points.  The simulation
returns net −2: only the opponent's 2 points for 31 are subtracted, with no
additional 1 subtracted for causing the reset, contradicting the claim's
predicted net of −3. -/
theorem simOne_opponent31_no_extra :
    simOne oppHits31State ⟨5, Suit.club⟩ [⟨10, Suit.spade⟩] = some (-2)
    ∧ simOne oppHits31State ⟨5, Suit.club⟩ [⟨10, Suit.spade⟩] ≠ some (-3) := by
  decide

/-- C9 (amended): only the AI's initial candidate play reaching exactly 31
ends a rollout iteration with an additional 1 point on top of the points for
the play itself; any later play reaching 31, by either side, ends the
iteration immediately with no additional point.  The first conjunct proves
the initial-play bonus in general; the last two evaluate an iteration in
which the opponent (respectively the AI, in the playout loop) reaches 31 and
only the ordinary points for that play are counted. -/
theorem simOne_initial31_bonus (st : PegState) (play : Card) (opp : List Card)
    (h : st.total + cardValue15 play.r = 31) :
    simOne st play opp = some ((2 + (isPairRunPoints st.stack play : Int)) + 1)
    ∧ simOne oppHits31State ⟨5, Suit.club⟩ [⟨10, Suit.spade⟩] = some (-2)
    ∧ simOne aiHits31State ⟨7, Suit.club⟩ [⟨5, Suit.diamond⟩] = some 2 := by
  refine ⟨?_, by decide, by decide⟩
  simp only [simOne, h]
  norm_num

/-- A pegging state at total 21 whose candidate play reaches exactly 31. -/
def initial31State : PegState :=
  { stack := [], total := 21, pHand := [], aiHand := [⟨10, Suit.club⟩]
    seen := [], starter := ⟨2, Suit.heart⟩, next := Who.AI
    pPassed := false, aiPassed := false, points := 0, thirtyOne := false }

/-- Witness for the rollout bonus theorem: a candidate play reaching 31 from
total 21 yields 2 points for the 31 plus the extra rollout point. -/
theorem simOne_initial31_bonus_witness :
    simOne initial31State ⟨10, Suit.club⟩ [] = some 3 := by
  have h := (simOne_initial31_bonus initial31State ⟨10, Suit.club⟩ [] (by decide)).1
  rw [h]
  decide

/-- A score state just below the finish used to instantiate the score claim. -/
def nearEndScores : GameSc :=
  { scores := { p := 118, ai := 50 }, prevScores := { p := 110, ai := 50 }
    gameOver := false, winner := none }

/-- Witness for the score invariants: awarding 5 points to the player at 118
clamps the score to 120, flips game over, and keeps both scores in range. -/
theorem addScore_invariants_witness :
    (nearEndScores.scores.p ≤ (addScore nearEndScores Who.P 5).scores.p
      ∧ nearEndScores.scores.ai ≤ (addScore nearEndScores Who.P 5).scores.ai)
    ∧ ((addScore nearEndScores Who.P 5).scores.p ≤ 120
      ∧ (addScore nearEndScores Who.P 5).scores.ai ≤ 120)
    ∧ ((120 ≤ (addScore nearEndScores Who.P 5).scores.p
        ∨ 120 ≤ (addScore nearEndScores Who.P 5).scores.ai)
        → (addScore nearEndScores Who.P 5).gameOver = true)
    ∧ (nearEndScores.gameOver = true → addScore nearEndScores Who.P 5 = nearEndScores)
    ∧ ((addScore nearEndScores Who.P 5).gameOver = false
        → (addScore nearEndScores Who.P 5).scores.p < 120
          ∧ (addScore nearEndScores Who.P 5).scores.ai < 120) :=
  addScore_invariants nearEndScores Who.P 5 (by decide) (by decide) (by decide)
